import Mathlib

/-!
Shallow embedding of `check_mi.py` (check-media-integrity), covering the
extension filter of the scanner, the probe dispatch in `check_file`, the
`check_zeros` run scanner, `check_size`, the `ffmpeg_check` invocation
shape, the result-collection loop of `main`, the `TimedLogger` throttle,
and the finalization tail of `main` (summary, forced log, CSV report).

External decode libraries (Pillow, ImageMagick, ffmpeg) are opaque
collaborators: each probe is modelled by an oracle result attached to the
file (success, or an exception message). Wall-clock time is passed as an
explicit parameter. Python ints are `Int`/`Nat`; `time.time()` floats are
`Rat` (only order and subtraction matter to the logic).
-/

/-- The list `PIL_EXTENSIONS` as initialized at module load (before `setup` may
extend it with the extra list). -/
def PIL_EXTENSIONS : List String :=
  ["jpg", "jpeg", "jpe", "png", "bmp", "gif", "pcd", "tif", "tiff", "j2k", "j2p", "j2x", "webp"]

def PIL_EXTRA_EXTENSIONS : List String :=
  ["eps", "ico", "im", "pcx", "ppm", "sgi", "spider", "xbm", "tga"]

def MAGICK_EXTENSIONS : List String := ["psd", "xcf"]

def VIDEO_EXTENSIONS : List String :=
  ["avi", "mp4", "mov", "mpeg", "mpg", "m2p", "mkv", "3gp", "ogg", "flv", "f4v", "f4p", "f4a", "f4b"]

def AUDIO_EXTENSIONS : List String := ["mp3", "mp2"]

/-- The run configuration produced by `arg_parser` (the fields the core
reads). `zero_detect` default 0, `error_detect` default "default",
`timeout` default 120. -/
structure Config where
  is_recurse : Bool
  is_disable_image : Bool
  is_enable_media : Bool
  is_disable_extra : Bool
  zero_detect : Nat
  error_detect : String
  threads : Nat
  timeout : Nat
  enable_csv : Bool
deriving DecidableEq, Repr

def default_config : Config :=
  { is_recurse := false, is_disable_image := false, is_enable_media := false,
    is_disable_extra := false, zero_detect := 0, error_detect := "default",
    threads := 1, timeout := 120, enable_csv := false }

/-- The global `PIL_EXTENSIONS` after `setup`: `setup` extends it with
`PIL_EXTRA_EXTENSIONS` whenever extras are enabled (independent of the
image-disable flag). -/
def pil_extensions (cfg : Config) : List String :=
  PIL_EXTENSIONS ++ (if cfg.is_disable_extra then [] else PIL_EXTRA_EXTENSIONS)

/-- The global `MEDIA_EXTENSIONS` after `setup`: images (with extras and
magick formats when enabled), then audio/video when media is enabled. -/
def media_extensions (cfg : Config) : List String :=
  (if cfg.is_disable_image then []
   else pil_extensions cfg ++ (if cfg.is_disable_extra then [] else MAGICK_EXTENSIONS)) ++
  (if cfg.is_enable_media then VIDEO_EXTENSIONS ++ AUDIO_EXTENSIONS else [])

/-- Suffix of `l` strictly after the LAST occurrence of `c`, `none` when
`c` does not occur (the `rfind` core of `os.path.splitext`). -/
def afterLast (c : Char) : List Char → Option (List Char)
  | [] => none
  | x :: xs =>
    match afterLast c xs with
    | some r => some r
    | none => if x = c then some xs else none

/-- The extension (without the dot) computed by
`os.path.splitext(p)[1][1:]` on a POSIX path: take the basename (after the
last separator); its part after the last dot is the extension, except when
every basename character before that dot is itself a dot (then there is no
extension — e.g. dotfiles such as `.jpg`). -/
def splitext_ext (p : List Char) : List Char :=
  let base := (afterLast '/' p).getD p
  match afterLast '.' base with
  | none => []
  | some suf =>
    if (base.take (base.length - suf.length - 1)).all (fun ch => ch = '.') then [] else suf

/-- Python `str.lower` on the character list. Python lowercases full Unicode;
`Char.toLower` covers ASCII, which is where the two agree on every name
and extension this program compares. -/
def lowerChars (p : List Char) : List Char :=
  p.map Char.toLower

/-- Source `get_extension`: lowercase the name, then `splitext`, drop the dot. -/
def get_extension (filename : String) : String :=
  String.mk (splitext_ext (lowerChars filename.data))

/-- Source `is_target_file`: membership of the extension in `MEDIA_EXTENSIONS`
(passed here explicitly as `media_exts`). -/
def is_target_file (media_exts : List String) (filename : String) : Bool :=
  media_exts.contains (get_extension filename)

/-- Modelled from the spec: the claim reading of the scanner filter — the
extension is "the substring after the last `.` in the filename"
(lowercased), with files containing no `.` excluded. Stated for comparison
with `is_target_file`. -/
def claim_target (allow : List String) (filename : String) : Bool :=
  match afterLast '.' (lowerChars filename.data) with
  | none => false
  | some suf => allow.contains (String.mk suf)

/-- The `file_size` slot of an outcome: a stat size, or the NA
sentinel the code starts from. -/
inductive Size where
  | known : Nat → Size
  | na : Size
deriving DecidableEq, Repr

def knownSize : Size → Nat
  | Size.known n => n
  | Size.na => 0

def hasKnownSize (s : Size) : Bool :=
  match s with
  | Size.known _ => true
  | Size.na => false

/-- Structural model of the exception messages `str(e)` the probes can
produce. `zeroSize` is `SyntaxError("Zero size file")`; `zeroRun v len` is
`Exception("Equal value sequence, value:", v, "len:", len)` where `v` is
the `maxprev` slot (a byte value or Python `None`); `osError` is a failed
`os.stat`; `external m` is an exception of an external decode library. -/
inductive PyMsg where
  | zeroSize : PyMsg
  | zeroRun : Option Nat → Nat → PyMsg
  | osError : PyMsg
  | external : String → PyMsg
deriving DecidableEq, Repr

/-- The result tuple of `check_file`: `(ok, (filename, error, size))`. -/
structure Outcome where
  ok : Bool
  name : String
  err : Option PyMsg
  size : Size
deriving DecidableEq, Repr

/-- Oracle for the external decode probes on one file: `none` means the
call returns normally, `some m` means it raises an exception whose
`str` is `m`. -/
structure ExternalEnv where
  pil : Option String
  magick : Option String
  magickIdentify : Option String
  ffmpeg : Option String
deriving DecidableEq, Repr

/-- A file as the checker sees it: its path, whether `os.stat` succeeds,
its raw bytes (the stat size is their length), and the external-probe
oracle. -/
structure FileModel where
  name : String
  statOk : Bool
  content : List Nat
  env : ExternalEnv
deriving DecidableEq, Repr

def envProbe (r : Option String) : Except PyMsg Unit :=
  match r with
  | none => Except.ok ()
  | some m => Except.error (PyMsg.external m)

/-- Source `check_size`: stat the file; raise `SyntaxError("Zero size file")`
when the size is 0 (with the default `zero_exception=True`); otherwise
return the size. A failing stat raises an OS error. -/
def check_size (f : FileModel) : Except PyMsg Nat :=
  if f.statOk = false then Except.error PyMsg.osError
  else if f.content.length = 0 then Except.error PyMsg.zeroSize
  else Except.ok f.content.length

/-- Loop state of `check_zeros`: current run length `num`, best run length
`maxnum`, previous byte `prev` (Python `None` initially), and the byte
value `maxprev` recorded with the best run (Python `None` initially). -/
structure ZScan where
  num : Nat
  maxnum : Nat
  prev : Option Nat
  maxprev : Option Nat
deriving DecidableEq, Repr

/-- One iteration of the `check_zeros` loop body. On a value change the
completed run is compared against the best, and on improvement both
`maxnum` and `maxprev` are updated. -/
def zstep (s : ZScan) (i : Nat) : ZScan :=
  if s.prev = some i then { s with num := s.num + 1 }
  else if s.num > s.maxnum then
    { num := 1, maxnum := s.num, prev := some i, maxprev := s.prev }
  else { s with num := 1, prev := some i }

def zscan (content : List Nat) : ZScan :=
  content.foldl zstep { num := 1, maxnum := 1, prev := none, maxprev := none }

/-- The `(maxnum, maxprev)` pair after the loop: the trailing
`if num > maxnum: maxnum = num` updates only `maxnum`, never `maxprev`. -/
def check_zeros_result (content : List Nat) : Nat × Option Nat :=
  let s := zscan content
  if s.num > s.maxnum then (s.num, s.maxprev) else (s.maxnum, s.maxprev)

/-- Source `check_zeros` with a threshold: raise
`Exception("Equal value sequence, value:", maxprev, "len:", maxnum)`
when `maxnum >= length_seq_threshold`. -/
def check_zeros (content : List Nat) (length_seq_threshold : Nat) : Except PyMsg Unit :=
  let r := check_zeros_result content
  if r.1 ≥ length_seq_threshold then Except.error (PyMsg.zeroRun r.2 r.1) else Except.ok ()

/-- The keyword arguments `ffmpeg_check` hands to `ffmpeg.input`:
`none` in default mode (no `err_detect`, no `threads`); otherwise
`some (flags, threads)` with strict expanding to the fixed
combination and any other string passed through verbatim. -/
def ffmpeg_invocation (error_detect : String) (threads : Nat) : Option (String × Nat) :=
  if error_detect = "default" then none
  else if error_detect = "strict" then some ("+crccheck+bitstream+buffer+explode", threads)
  else some (error_detect, threads)

/-- Identifier of a probe step executed by `check_file`, with the
arguments that shape the call. -/
inductive Probe where
  | size : Probe
  | zeros : Nat → Probe
  | pil : Probe
  | magick : Probe
  | magickIdentify : Probe
  | ffmpeg : Option (String × Nat) → Probe
deriving DecidableEq, Repr

/-- Run a sequence of probe calls in order, stopping at the first
exception; also return the trace of probes actually entered. -/
def runProbes : List (Probe × Except PyMsg Unit) → Except PyMsg Unit × List Probe
  | [] => (Except.ok (), [])
  | (p, r) :: rest =>
    match r with
    | Except.error e => (Except.error e, [p])
    | Except.ok _ =>
      let t := runProbes rest
      (t.1, p :: t.2)

/-- The category-specific probes of `check_file`, in source order: the
three sequential `if` blocks (PIL extensions; magick extensions; video
extensions) concatenated, since within the `try` they run back to back
and any exception aborts the rest. Note only `VIDEO_EXTENSIONS` is
tested — `AUDIO_EXTENSIONS` appears in no branch. -/
def categoryProbes (cfg : Config) (f : FileModel) (file_ext error_detect : String)
    (ffmpeg_threads : Nat) : List (Probe × Except PyMsg Unit) :=
  (if (pil_extensions cfg).contains file_ext then
      [(Probe.pil, envProbe f.env.pil),
       (Probe.magick, envProbe f.env.magick),
       (Probe.magickIdentify, envProbe f.env.magickIdentify)]
    else []) ++
  (if MAGICK_EXTENSIONS.contains file_ext then
      [(Probe.magick, envProbe f.env.magick),
       (Probe.magickIdentify, envProbe f.env.magickIdentify)]
    else []) ++
  (if VIDEO_EXTENSIONS.contains file_ext then
      [(Probe.ffmpeg (ffmpeg_invocation error_detect ffmpeg_threads), envProbe f.env.ffmpeg)]
    else [])

/-- All probes of the `try` body after the size probe, in source order:
the zero-run probe when the `zero_detect` parameter is positive (the
threshold it receives is `CONFIG.zero_detect`), then the category
probes. -/
def allProbes (cfg : Config) (f : FileModel) (file_ext error_detect : String)
    (zero_detect ffmpeg_threads : Nat) : List (Probe × Except PyMsg Unit) :=
  (if zero_detect > 0 then
      [(Probe.zeros cfg.zero_detect, check_zeros f.content cfg.zero_detect)]
    else []) ++
  categoryProbes cfg f file_ext error_detect ffmpeg_threads

/-- Source `check_file`, instrumented with the trace of probes entered. The
`file_size` local starts as NA and is assigned only when `check_size`
returns; the later probes run in order and the first exception aborts the
rest. The outcome component is exactly the tuple the Python function
returns. -/
def check_file_run (cfg : Config) (f : FileModel) (nominate_file_extension error_detect : String)
    (zero_detect ffmpeg_threads : Nat) : Outcome × List Probe :=
  let file_ext := if nominate_file_extension = "" then String.mk (splitext_ext (lowerChars f.name.data))
                  else nominate_file_extension
  match check_size f with
  | Except.error e => ({ ok := false, name := f.name, err := some e, size := Size.na }, [Probe.size])
  | Except.ok n =>
    let t := runProbes (allProbes cfg f file_ext error_detect zero_detect ffmpeg_threads)
    match t.1 with
    | Except.error e =>
        ({ ok := false, name := f.name, err := some e, size := Size.known n }, Probe.size :: t.2)
    | Except.ok _ =>
        ({ ok := true, name := f.name, err := none, size := Size.known n }, Probe.size :: t.2)

def check_file (cfg : Config) (f : FileModel) (nominate_file_extension error_detect : String)
    (zero_detect ffmpeg_threads : Nat) : Outcome :=
  (check_file_run cfg f nominate_file_extension error_detect zero_detect ffmpeg_threads).1

/-- The single-file branch of `main`:
`check_file` with an empty nominate extension and the configured error-detect mode — the `zero_detect` and
`ffmpeg_threads` parameters are left at their defaults (0). -/
def single_file_check (cfg : Config) (f : FileModel) : Outcome × List Probe :=
  check_file_run cfg f "" cfg.error_detect 0 0

/-- One observation of `out_queue.get`: an outcome arrives, or the wait
exceeds the timeout and `queue.Empty` is raised. An exhausted event list
also means no further outcome ever arrives, i.e. a timeout. -/
inductive QEvent where
  | item : Outcome → QEvent
  | timeout : QEvent
deriving DecidableEq, Repr

/-- A row of `bad_files_info`: the initial header tuple, or the outcome
detail tuple `(filename, error, size)` of one failed file. -/
inductive CsvRow where
  | header : CsvRow
  | entry : String → Option PyMsg → Size → CsvRow
deriving DecidableEq, Repr

/-- The mutable collector locals in `main`. -/
structure CollectState where
  count : Nat
  count_bad : Nat
  total_file_size : Nat
  bad_files_info : List CsvRow
deriving DecidableEq, Repr

def initCollectState : CollectState :=
  { count := 0, count_bad := 0, total_file_size := 0, bad_files_info := [CsvRow.header] }

/-- Per-outcome body of the collection loop (after the `get`): add the
size when it is not NA (an NA size contributes 0, i.e. nothing);
on failure bump `count_bad` and append the detail tuple. The per-iteration
`timed_logger.print_log` call only reads these counters and mutates the
logger, which is modelled separately by `print_log`. -/
def processOutcome (st : CollectState) (o : Outcome) : CollectState :=
  { st with
    total_file_size := st.total_file_size + knownSize o.size,
    count_bad := st.count_bad + (if o.ok = false then 1 else 0),
    bad_files_info := st.bad_files_info ++
      (if o.ok = false then [CsvRow.entry o.name o.err o.size] else []) }

/-- Result of the collection loop: final counters, outcomes actually
received from the output channel, and whether the loop was aborted by a
`queue.Empty` timeout. -/
structure CollectResult where
  state : CollectState
  received : List Outcome
  timedOut : Bool
deriving DecidableEq, Repr

/-- The `for j in range(pre_count)` loop of `main`: `count` is
incremented BEFORE the blocking `get`; a timeout breaks out to the
`except Empty` handler with that increment already applied. -/
def collectLoop : Nat → List QEvent → CollectState → CollectResult
  | 0, _, st => { state := st, received := [], timedOut := false }
  | Nat.succ n, evs, st =>
    let st1 := { st with count := st.count + 1 }
    match evs with
    | QEvent.item o :: rest =>
      let r := collectLoop n rest (processOutcome st1 o)
      { state := r.state, received := o :: r.received, timedOut := r.timedOut }
    | QEvent.timeout :: _ => { state := st1, received := [], timedOut := true }
    | [] => { state := st1, received := [], timedOut := true }

def runCollect (pre_count : Nat) (evs : List QEvent) : CollectResult :=
  collectLoop pre_count evs initCollectState

/-- The report rows contributed by a list of received outcomes: one entry
per failed outcome, in arrival order, carrying the fields of that outcome. -/
def badEntries (os : List Outcome) : List CsvRow :=
  (os.filter fun o => !o.ok).map fun o => CsvRow.entry o.name o.err o.size

def sizeSum (os : List Outcome) : Nat :=
  (os.map fun o => knownSize o.size).sum

def UPDATE_SEC_INTERVAL : ℚ := 5

def UPDATE_MB_INTERVAL : Int := 500

/-- The mutable fields of `TimedLogger`. Times are wall-clock samples;
sizes are byte counts. -/
structure TimedLogger where
  previous_time : ℚ
  previous_size : Int
  start_time : ℚ
deriving DecidableEq, Repr

/-- Source `TimedLogger.print_log`, with the `time.time()` sample passed in as
`cur_time`. Returns whether the progress lines were printed, plus the
updated logger. A non-forced call returns immediately when fewer than
`wait_min_processed` MBytes arrived since the last emission; otherwise it
emits when the elapsed time strictly exceeds `UPDATE_SEC_INTERVAL`, and a
forced call emits unconditionally. -/
def print_log (st : TimedLogger) (num_files num_bad_files : Nat)
    (total_file_size wait_min_processed : Int) (force : Bool) (cur_time : ℚ) :
    Bool × TimedLogger :=
  if force = false ∧ total_file_size - st.previous_size < wait_min_processed * (1024 * 1024) then
    (false, st)
  else
    if cur_time - st.previous_time > UPDATE_SEC_INTERVAL ∨ force = true then
      (true, { st with previous_time := cur_time, previous_size := total_file_size })
    else (false, st)

/-- A Python-level error that escapes `main` and aborts the process. -/
inductive PyRunError where
  | attributeError : String → PyRunError
deriving DecidableEq, Repr

/-- The expression `e.message` evaluated on the caught `queue.Empty`
instance. In Python 3 `queue.Empty` is a bare `Exception` subclass and
exception instances carry no `message` attribute, so the attribute access
raises `AttributeError` instead of producing a string. -/
def emptyExcMessage : Except PyRunError String :=
  Except.error (PyRunError.attributeError "Empty object has no attribute message")

/-- What reaches the user at the end of a directory run. -/
structure FinalReport where
  summaryPrinted : Bool
  forcedLogEmitted : Bool
  csvRows : Option (List CsvRow)
  count : Nat
  count_bad : Nat
  total_file_size : Nat
deriving DecidableEq, Repr

/-- The post-loop tail of `main` on the non-crashing path: print the
summary, force a `print_log`, and when any file was bad and CSV is
enabled call `save_csv`, which writes exactly the rows of
`bad_files_info` in order. -/
def finishReport (cfg : Config) (lst : TimedLogger) (now : ℚ) (r : CollectResult) : FinalReport :=
  { summaryPrinted := true
    forcedLogEmitted :=
      (print_log lst r.state.count r.state.count_bad (Int.ofNat r.state.total_file_size)
        UPDATE_MB_INTERVAL true now).1
    csvRows := if 0 < r.state.count_bad ∧ cfg.enable_csv = true then some r.state.bad_files_info else none
    count := r.state.count
    count_bad := r.state.count_bad
    total_file_size := r.state.total_file_size }

/-- The code after the collection loop: when the loop was aborted by
`queue.Empty`, the `except` handler evaluates `e.message` while building
its print arguments; only if that produced a string would control reach
the summary/forced-log/CSV tail. -/
def run_directory_tail (cfg : Config) (lst : TimedLogger) (now : ℚ) (r : CollectResult) :
    Except PyRunError FinalReport :=
  if r.timedOut then
    match emptyExcMessage with
    | Except.error e => Except.error e
    | Except.ok _ => Except.ok (finishReport cfg lst now r)
  else Except.ok (finishReport cfg lst now r)

/-- A full directory-mode collection plus finalization. -/
def directory_run (cfg : Config) (lst : TimedLogger) (now : ℚ)
    (pre_count : Nat) (evs : List QEvent) : Except PyRunError FinalReport :=
  run_directory_tail cfg lst now (runCollect pre_count evs)

/-- An oracle under which every external decode probe succeeds. -/
def envOK : ExternalEnv :=
  { pil := none, magick := none, magickIdentify := none, ffmpeg := none }

/-- A zero-byte image file whose stat succeeds. -/
def file_zero : FileModel :=
  { name := "z.jpg", statOk := true, content := [], env := envOK }

/-- The default configuration with audio/video checking enabled (`-m`). -/
def media_config : Config := { default_config with is_enable_media := true }

/-- A well-formed, nonempty mp3 file. -/
def file_mp3 : FileModel :=
  { name := "song.mp3", statOk := true, content := [1, 2, 3], env := envOK }

/-- The default configuration with a zero-run threshold of 3 (`-z 3`). -/
def zero3_config : Config := { default_config with zero_detect := 3 }

/-- An image file whose longest byte run (three 1s) is its final run. -/
def file_run4 : FileModel :=
  { name := "pic.jpg", statOk := true, content := [0, 1, 1, 1], env := envOK }

/-- The default configuration with CSV output enabled. -/
def csv_config : Config := { default_config with enable_csv := true }

/-- A `TimedLogger` right after `start()` at time 0. -/
def logger0 : TimedLogger := { previous_time := 0, previous_size := 0, start_time := 0 }

/-- A failed outcome, as a worker would publish it. -/
def bad_outcome : Outcome :=
  { ok := false, name := "b.jpg", err := some PyMsg.zeroSize, size := Size.na }

theorem runProbes_trace_subset (l : List (Probe × Except PyMsg Unit)) (p : Probe)
    (h : p ∈ (runProbes l).2) : p ∈ l.map Prod.fst := by
  induction l with
  | nil => simp [runProbes] at h
  | cons x xs ih =>
    obtain ⟨q, r⟩ := x
    cases r with
    | error e => simp [runProbes] at h; simp [h]
    | ok u =>
      simp only [runProbes] at h
      rcases List.mem_cons.mp h with h | h
      · simp [h]
      · simp only [List.map_cons, List.mem_cons]
        exact Or.inr (ih h)

theorem categoryProbes_no_zeros (cfg : Config) (f : FileModel) (fe ed : String) (th t : Nat) :
    Probe.zeros t ∉ (categoryProbes cfg f fe ed th).map Prod.fst := by
  unfold categoryProbes
  by_cases h1 : (pil_extensions cfg).contains fe <;>
  by_cases h2 : MAGICK_EXTENSIONS.contains fe <;>
  by_cases h3 : VIDEO_EXTENSIONS.contains fe <;>
  simp [h1, h2, h3]

/-- Claim C10: in single-file mode the zero-run probe never executes: the
driver calls `check_file` with the `zero_detect` parameter left at its
default of 0, which disables the probe regardless of the configured
threshold, so the file is checked only by the size probe and the
category-specific probes. -/
theorem single_file_no_zero_probe (cfg : Config) (f : FileModel) (t : Nat) :
    Probe.zeros t ∉ (single_file_check cfg f).2 := by
  unfold single_file_check check_file_run
  intro h
  have hall : allProbes cfg f (String.mk (splitext_ext (lowerChars f.name.data)))
      cfg.error_detect 0 0 = categoryProbes cfg f
      (String.mk (splitext_ext (lowerChars f.name.data))) cfg.error_detect 0 := by
    unfold allProbes; simp
  cases hcs : check_size f with
  | error e => simp [hcs] at h
  | ok n =>
    cases hr : (runProbes (allProbes cfg f
        (String.mk (splitext_ext (lowerChars f.name.data))) cfg.error_detect 0 0)).1 with
    | error e =>
      simp [hcs, hr] at h
      rw [hall] at h
      exact categoryProbes_no_zeros cfg f _ cfg.error_detect 0 t
        (runProbes_trace_subset _ _ h)
    | ok u =>
      simp [hcs, hr] at h
      rw [hall] at h
      exact categoryProbes_no_zeros cfg f _ cfg.error_detect 0 t
        (runProbes_trace_subset _ _ h)

/-- Claim C3: a file whose stat size is 0 bytes always produces a failure
outcome whose message is the zero-size message, for every category
(any extension, any probe oracle): the size probe runs first and is the
only probe entered. -/
theorem zero_size_always_fails (cfg : Config) (f : FileModel)
    (nominate_file_extension error_detect : String) (zero_detect ffmpeg_threads : Nat)
    (hstat : f.statOk = true) (hempty : f.content = []) :
    check_file_run cfg f nominate_file_extension error_detect zero_detect ffmpeg_threads =
      ({ ok := false, name := f.name, err := some PyMsg.zeroSize, size := Size.na },
       [Probe.size]) := by
  unfold check_file_run check_size
  simp [hstat, hempty]

theorem zero_size_always_fails_witness :
    file_zero.statOk = true ∧ file_zero.content = [] ∧
    check_file_run default_config file_zero "" "default" 0 0 =
      ({ ok := false, name := "z.jpg", err := some PyMsg.zeroSize, size := Size.na },
       [Probe.size]) :=
  ⟨rfl, rfl, zero_size_always_fails default_config file_zero "" "default" 0 0 rfl rfl⟩

/-- Claim C4 counterexample: for a zero-byte file the stat call succeeds,
yet the outcome carries the NA sentinel — `check_size` raises before
`file_size` is assigned — refuting "unknown only when the stat call itself
fails". -/
theorem outcome_size_na_despite_stat :
    file_zero.statOk = true ∧
    (check_file default_config file_zero "" "default" 0 0).size = Size.na :=
  ⟨rfl, rfl⟩

/-- Claim C4 (amended): the outcome carries the actual stat size exactly
when stat succeeds and the size is nonzero; it carries the NA sentinel
both when stat fails and when the size is zero (the zero-size failure is
raised inside the size probe before the size is recorded). -/
theorem outcome_size_characterization (cfg : Config) (f : FileModel)
    (nominate_file_extension error_detect : String) (zero_detect ffmpeg_threads : Nat) :
    (check_file_run cfg f nominate_file_extension error_detect zero_detect ffmpeg_threads).1.size
      = if f.statOk = true ∧ f.content.length ≠ 0 then Size.known f.content.length
        else Size.na := by
  by_cases hs : f.statOk = true
  · by_cases hz : f.content.length = 0
    · rw [if_neg (fun h => h.2 hz)]
      unfold check_file_run check_size
      rw [hs, if_neg (show ¬(true = false) by decide), if_pos hz]
    · rw [if_pos ⟨hs, hz⟩]
      unfold check_file_run check_size
      rw [hs, if_neg (show ¬(true = false) by decide), if_neg hz]
      split <;> simp_all <;> split <;> rfl
  · have hs2 : f.statOk = false := by simpa using hs
    rw [if_neg (fun h => hs h.1)]
    unfold check_file_run check_size
    rw [hs2, if_pos rfl]

/-- Claim C5: `ffmpeg_check` maps the error-detection mode as specified
(`default` passes no flags, `strict` expands to
`+crccheck+bitstream+buffer+explode`, any other string is passed through
verbatim) — but `check_file` never reaches it for audio files: `mp3` is
an audio extension and a scan target when media is enabled, yet checking
a well-formed mp3 enters only the size probe and succeeds
unconditionally, because only `VIDEO_EXTENSIONS` is dispatched. -/
theorem audio_files_skip_transcoder_probe :
    ffmpeg_invocation "default" 0 = none
    ∧ ffmpeg_invocation "strict" 4 = some ("+crccheck+bitstream+buffer+explode", 4)
    ∧ ffmpeg_invocation "+buffer+bitstream" 2 = some ("+buffer+bitstream", 2)
    ∧ AUDIO_EXTENSIONS.contains "mp3" = true
    ∧ (media_extensions media_config).contains "mp3" = true
    ∧ check_file_run media_config file_mp3 "" "strict" 0 0
        = ({ ok := true, name := "song.mp3", err := none, size := Size.known 3 },
           [Probe.size]) :=
  ⟨rfl, rfl, rfl, rfl, rfl, by decide⟩

/-- Claim C6: with threshold 3, a file whose bytes are `[0,1,1,1]`
contains a run of three consecutive 1s and the zero-run probe does fail —
but the reported repeated value is `None` instead of 1, because the
post-loop `if num > maxnum` update sets `maxnum` without updating
`maxprev` when the longest run is the final run of the file. -/
theorem zero_run_value_misreported :
    (∃ pre post, file_run4.content = pre ++ List.replicate 3 1 ++ post)
    ∧ check_file_run zero3_config file_run4 "" "default" 3 0
        = ({ ok := false, name := "pic.jpg", err := some (PyMsg.zeroRun none 3),
             size := Size.known 4 },
           [Probe.size, Probe.zeros 3]) :=
  ⟨⟨[0], [], rfl⟩, by decide⟩

/-- Claim C1: when the collection wait times out, the `except Empty`
handler evaluates `e.message`, which raises `AttributeError` in Python 3;
the run aborts with an uncaught exception instead of proceeding to the
summary, the forced progress line and the CSV report. -/
theorem collector_timeout_aborts_run :
    directory_run csv_config logger0 0 1 [QEvent.timeout]
      = Except.error (PyRunError.attributeError "Empty object has no attribute message") :=
  rfl

theorem badEntries_cons (o : Outcome) (l : List Outcome) :
    badEntries (o :: l)
      = (if o.ok = false then [CsvRow.entry o.name o.err o.size] else []) ++ badEntries l := by
  cases hok : o.ok <;> simp [badEntries, List.filter_cons, hok]

theorem sizeSum_cons (o : Outcome) (l : List Outcome) :
    sizeSum (o :: l) = knownSize o.size + sizeSum l := by
  simp [sizeSum]

theorem sizeSum_eq_filter (l : List Outcome) :
    sizeSum l = ((l.filter fun o => hasKnownSize o.size).map fun o => knownSize o.size).sum := by
  induction l with
  | nil => rfl
  | cons o l ih =>
    rw [sizeSum_cons, ih, List.filter_cons]
    cases hs : o.size <;> simp [hasKnownSize, hs, knownSize]

theorem processOutcome_count (st : CollectState) (o : Outcome) :
    (processOutcome st o).count = st.count := rfl

theorem processOutcome_count_bad (st : CollectState) (o : Outcome) :
    (processOutcome st o).count_bad = st.count_bad + (if o.ok = false then 1 else 0) := rfl

theorem processOutcome_total (st : CollectState) (o : Outcome) :
    (processOutcome st o).total_file_size = st.total_file_size + knownSize o.size := rfl

theorem processOutcome_rows (st : CollectState) (o : Outcome) :
    (processOutcome st o).bad_files_info
      = st.bad_files_info ++ (if o.ok = false then [CsvRow.entry o.name o.err o.size] else []) :=
  rfl

/-- The collection-loop invariant: relative to the starting state, the
loop adds one `count` per received outcome plus one extra increment when
it ends by timeout; it adds one `count_bad` and one report row per failed
received outcome, in arrival order; and it adds the known sizes of the
received outcomes to `total_file_size`. -/
theorem collectLoop_spec (n : Nat) (evs : List QEvent) (st : CollectState) :
    (collectLoop n evs st).state.count
        = st.count + (collectLoop n evs st).received.length
          + (if (collectLoop n evs st).timedOut then 1 else 0)
    ∧ (collectLoop n evs st).state.count_bad
        = st.count_bad + (badEntries (collectLoop n evs st).received).length
    ∧ (collectLoop n evs st).state.total_file_size
        = st.total_file_size + sizeSum (collectLoop n evs st).received
    ∧ (collectLoop n evs st).state.bad_files_info
        = st.bad_files_info ++ badEntries (collectLoop n evs st).received := by
  induction n generalizing evs st with
  | zero => simp [collectLoop, badEntries, sizeSum]
  | succ n ih =>
    cases evs with
    | nil => simp [collectLoop, badEntries, sizeSum]
    | cons e rest =>
      cases e with
      | timeout => simp [collectLoop, badEntries, sizeSum]
      | item o =>
        obtain ⟨h1, h2, h3, h4⟩ := ih rest (processOutcome { st with count := st.count + 1 } o)
        rw [processOutcome_count] at h1
        rw [processOutcome_count_bad] at h2
        rw [processOutcome_total] at h3
        rw [processOutcome_rows] at h4
        simp only [collectLoop]
        refine ⟨?_, ?_, ?_, ?_⟩
        · by_cases ht : (collectLoop n rest
              (processOutcome { st with count := st.count + 1 } o)).timedOut = true <;>
            simp [ht] at h1 ⊢ <;> omega
        · by_cases hok : o.ok = false <;>
            simp [badEntries_cons, hok] at h2 ⊢ <;> omega
        · simp [sizeSum_cons] at h3 ⊢
          omega
        · by_cases hok : o.ok = false <;>
            simp [badEntries_cons, hok] at h4 ⊢ <;> rw [h4]

/-- Claim C2 counterexample: with one enqueued task and a timeout on the
first wait, the loop exits with `count = 1` although zero outcomes were
received — `count` is incremented before the blocking `get`, so on the
timeout path the processed count exceeds the received count. -/
theorem collector_count_mismatch_on_timeout :
    (runCollect 1 [QEvent.timeout]).state.count = 1
    ∧ (runCollect 1 [QEvent.timeout]).received.length = 0 :=
  ⟨rfl, rfl⟩

/-- Claim C2 (amended): after the loop, `count` equals the number of
outcomes received plus one extra increment iff the loop ended by timeout
(so the two are equal exactly on normal completion); `count_bad` never
exceeds `count`; and `total_file_size` is the sum of the size fields of
exactly the received outcomes whose size is known. -/
theorem collector_stats_amended (pre_count : Nat) (evs : List QEvent) :
    (runCollect pre_count evs).state.count
      = (runCollect pre_count evs).received.length
        + (if (runCollect pre_count evs).timedOut then 1 else 0)
    ∧ (runCollect pre_count evs).state.count_bad ≤ (runCollect pre_count evs).state.count
    ∧ (runCollect pre_count evs).state.total_file_size
      = (((runCollect pre_count evs).received.filter fun o => hasKnownSize o.size).map
          fun o => knownSize o.size).sum := by
  obtain ⟨h1, h2, h3, h4⟩ := collectLoop_spec pre_count evs initCollectState
  refine ⟨?_, ?_, ?_⟩
  · show (collectLoop pre_count evs initCollectState).state.count
        = (collectLoop pre_count evs initCollectState).received.length
          + (if (collectLoop pre_count evs initCollectState).timedOut then 1 else 0)
    rw [h1, show initCollectState.count = 0 from rfl]
    omega
  · have hle : (badEntries (collectLoop pre_count evs initCollectState).received).length
        ≤ (collectLoop pre_count evs initCollectState).received.length := by
      simp only [badEntries, List.length_map]
      exact List.length_filter_le _ _
    show (collectLoop pre_count evs initCollectState).state.count_bad
        ≤ (collectLoop pre_count evs initCollectState).state.count
    rw [h1, h2, show initCollectState.count = 0 from rfl,
        show initCollectState.count_bad = 0 from rfl]
    by_cases ht : (collectLoop pre_count evs initCollectState).timedOut = true <;>
      simp [ht] <;> omega
  · show (collectLoop pre_count evs initCollectState).state.total_file_size
        = (((collectLoop pre_count evs initCollectState).received.filter
            fun o => hasKnownSize o.size).map fun o => knownSize o.size).sum
    rw [h3, show initCollectState.total_file_size = 0 from rfl, sizeSum_eq_filter]
    omega

/-- Claim C8: the failure report is exactly one header row followed by
one entry per failed file, in the order the collector observed the
failures, with each row built from the corresponding outcome (so its size
field is the size of that outcome); its row count is the final bad counter
plus the header; and on the non-timeout path with CSV enabled and at
least one bad file, the finalization writes exactly these rows, once. -/
theorem failure_report_spec (pre_count : Nat) (evs : List QEvent) (cfg : Config)
    (lst : TimedLogger) (now : ℚ) :
    (runCollect pre_count evs).state.bad_files_info
        = CsvRow.header :: badEntries (runCollect pre_count evs).received
    ∧ (runCollect pre_count evs).state.bad_files_info.length
        = (runCollect pre_count evs).state.count_bad + 1
    ∧ ((runCollect pre_count evs).timedOut = false → cfg.enable_csv = true →
        0 < (runCollect pre_count evs).state.count_bad →
        run_directory_tail cfg lst now (runCollect pre_count evs)
          = Except.ok (finishReport cfg lst now (runCollect pre_count evs))
        ∧ (finishReport cfg lst now (runCollect pre_count evs)).csvRows
          = some ((runCollect pre_count evs).state.bad_files_info)) := by
  obtain ⟨h1, h2, h3, h4⟩ := collectLoop_spec pre_count evs initCollectState
  have hrows : (runCollect pre_count evs).state.bad_files_info
      = CsvRow.header :: badEntries (runCollect pre_count evs).received := by
    show (collectLoop pre_count evs initCollectState).state.bad_files_info
        = CsvRow.header :: badEntries (collectLoop pre_count evs initCollectState).received
    rw [h4, show initCollectState.bad_files_info = [CsvRow.header] from rfl]
    rfl
  refine ⟨hrows, ?_, fun hto hcsv hbad => ⟨?_, ?_⟩⟩
  · rw [hrows]
    show (badEntries (collectLoop pre_count evs initCollectState).received).length + 1
        = (collectLoop pre_count evs initCollectState).state.count_bad + 1
    rw [h2, show initCollectState.count_bad = 0 from rfl]
    omega
  · unfold run_directory_tail
    rw [hto]
    rfl
  · unfold finishReport
    rw [if_pos ⟨hbad, hcsv⟩]

theorem failure_report_spec_witness :
    (runCollect 1 [QEvent.item bad_outcome]).state.bad_files_info
        = CsvRow.header :: badEntries (runCollect 1 [QEvent.item bad_outcome]).received
    ∧ (run_directory_tail csv_config logger0 0 (runCollect 1 [QEvent.item bad_outcome])
          = Except.ok (finishReport csv_config logger0 0 (runCollect 1 [QEvent.item bad_outcome]))
        ∧ (finishReport csv_config logger0 0 (runCollect 1 [QEvent.item bad_outcome])).csvRows
          = some ((runCollect 1 [QEvent.item bad_outcome]).state.bad_files_info)) :=
  ⟨(failure_report_spec 1 [QEvent.item bad_outcome] csv_config logger0 0).1,
   (failure_report_spec 1 [QEvent.item bad_outcome] csv_config logger0 0).2.2
     (by decide) rfl (by decide)⟩

/-- Claim C9 counterexample: a non-forced call where the bytes since the
last emission EQUAL the byte threshold (500 MB exactly, not exceeding it)
and six seconds have elapsed does emit — the byte gate in the code is
"less than returns early", i.e. at-least, not strictly-greater. -/
theorem print_log_boundary_emission :
    (print_log logger0 1 0 (500 * 1024 * 1024) 500 false 6).1 = true
    ∧ ¬((500 * 1024 * 1024 : Int) - logger0.previous_size > 500 * (1024 * 1024)) := by
  constructor
  · norm_num [print_log, logger0, UPDATE_SEC_INTERVAL]
  · decide

/-- Claim C9 (amended): a call emits iff it is forced, or the bytes since
the last emission are AT LEAST the byte threshold (`≥`, not strictly
greater) and the elapsed time strictly exceeds the time threshold; in
particular a forced call always emits. -/
theorem print_log_emits_iff (st : TimedLogger) (num_files num_bad_files : Nat)
    (total_file_size wait_min_processed : Int) (force : Bool) (cur_time : ℚ) :
    (print_log st num_files num_bad_files total_file_size wait_min_processed force cur_time).1
        = true ↔
      (force = true
        ∨ (wait_min_processed * (1024 * 1024) ≤ total_file_size - st.previous_size
            ∧ UPDATE_SEC_INTERVAL < cur_time - st.previous_time)) := by
  unfold print_log
  cases force with
  | true => simp
  | false =>
    by_cases hb : total_file_size - st.previous_size < wait_min_processed * 1048576
    · simp [hb, not_le.mpr hb]
    · by_cases ht : UPDATE_SEC_INTERVAL < cur_time - st.previous_time
      · simp [hb, ht, le_of_not_lt hb]
      · simp [hb, ht]

theorem afterLast_eq_none (c : Char) (l : List Char) : afterLast c l = none ↔ c ∉ l := by
  induction l with
  | nil => simp [afterLast]
  | cons x xs ih =>
    simp only [afterLast]
    cases h : afterLast c xs with
    | some r =>
      have hc : c ∈ xs := by
        by_contra hcn
        rw [ih.mpr hcn] at h
        cases h
      simp [List.mem_cons, hc]
    | none =>
      by_cases hx : x = c
      · simp [hx]
      · have hcx : ¬c = x := fun hh => hx hh.symm
        simp [hx, List.mem_cons, ih.mp h, hcx]

theorem afterLast_decomp (c : Char) {l r : List Char} (h : afterLast c l = some r) :
    ∃ pre, l = pre ++ c :: r ∧ c ∉ r := by
  induction l with
  | nil => simp [afterLast] at h
  | cons x xs ih =>
    simp only [afterLast] at h
    cases hx : afterLast c xs with
    | some r2 =>
      rw [hx] at h
      obtain rfl : r2 = r := Option.some.inj h
      obtain ⟨pre, hp, hn⟩ := ih hx
      exact ⟨x :: pre, by rw [hp]; rfl, hn⟩
    | none =>
      rw [hx] at h
      by_cases hxc : x = c
      · rw [if_pos hxc] at h
        obtain rfl : xs = r := Option.some.inj h
        subst hxc
        exact ⟨[], rfl, (afterLast_eq_none _ xs).mp hx⟩
      · rw [if_neg hxc] at h
        cases h

theorem afterLast_append (c : Char) (pre r : List Char) (hr : c ∉ r) :
    afterLast c (pre ++ c :: r) = some r := by
  induction pre with
  | nil =>
    simp only [List.nil_append, afterLast]
    rw [(afterLast_eq_none c r).mpr hr]
    simp
  | cons x xs ih =>
    simp only [List.cons_append, afterLast, List.append_eq]
    rw [ih]

theorem take_before_marker (pre suf : List Char) (c : Char) :
    (pre ++ c :: suf).take ((pre ++ c :: suf).length - suf.length - 1) = pre := by
  have h : (pre ++ c :: suf).length - suf.length - 1 = pre.length := by
    simp only [List.length_append, List.length_cons]
    omega
  rw [h]
  exact List.take_left pre (c :: suf)

theorem splitext_ext_of_none {p : List Char} (hs : afterLast '/' p = none)
    (hd : afterLast '.' p = none) : splitext_ext p = [] := by
  unfold splitext_ext
  rw [hs, Option.getD_none]
  dsimp only
  rw [hd]

theorem splitext_ext_of_some {p suf : List Char} (hs : afterLast '/' p = none)
    (hd : afterLast '.' p = some suf) :
    splitext_ext p
      = if (p.take (p.length - suf.length - 1)).all (fun ch => ch = '.') then [] else suf := by
  unfold splitext_ext
  rw [hs, Option.getD_none]
  dsimp only
  rw [hd]

/-- Claim C7 counterexample: for the dotfile name `.jpg` the substring
after the last dot is `jpg`, a member of the default allow-list, so the
claim filter would include it — but `os.path.splitext` yields no
extension for names whose characters before the last dot are all dots,
so the scanner excludes it. -/
theorem dotfile_scanner_mismatch :
    claim_target (media_extensions default_config) ".jpg" = true
    ∧ is_target_file (media_extensions default_config) ".jpg" = false := by
  constructor
  · decide
  · decide

/-- Claim C7 (amended): for a filename without a path separator and an
allow-list without the empty extension, the scanner includes the file iff
the lowercased name splits as `pre ++ dot :: suf` around its LAST dot
(`suf` dot-free), at least one character of `pre` is not a dot, and `suf`
is in the allow-list. Names with no dot, and dotfile-style names whose
characters before the last dot are all dots (such as `.jpg`), are
excluded; matching is case-insensitive via the lowercasing. -/
theorem scanner_filter_amended (allow : List String) (f : String)
    (hsep : '/' ∉ lowerChars f.data) (hempty : allow.contains "" = false) :
    is_target_file allow f = true ↔
      ∃ pre suf : List Char,
        lowerChars f.data = pre ++ '.' :: suf ∧ '.' ∉ suf
        ∧ (∃ ch ∈ pre, ch ≠ '.') ∧ allow.contains (String.mk suf) = true := by
  have hs : afterLast '/' (lowerChars f.data) = none :=
    (afterLast_eq_none '/' (lowerChars f.data)).mpr hsep
  unfold is_target_file get_extension
  cases hd : afterLast '.' (lowerChars f.data) with
  | none =>
    rw [splitext_ext_of_none hs hd]
    constructor
    · intro hc
      have h0 : allow.contains (String.mk ([] : List Char)) = false := hempty
      rw [h0] at hc
      cases hc
    · rintro ⟨pre, suf, hdec, hns, hex, hcon⟩
      rw [hdec, afterLast_append '.' pre suf hns] at hd
      cases hd
  | some suf =>
    obtain ⟨pre, hdec, hns⟩ := afterLast_decomp '.' hd
    rw [splitext_ext_of_some hs hd]
    by_cases hall : ((lowerChars f.data).take
        ((lowerChars f.data).length - suf.length - 1)).all (fun ch => ch = '.') = true
    · rw [if_pos hall]
      constructor
      · intro hc
        have h0 : allow.contains (String.mk ([] : List Char)) = false := hempty
        rw [h0] at hc
        cases hc
      · rintro ⟨pre2, suf2, hdec2, hns2, ⟨ch, hch, hchd⟩, hcon2⟩
        have h2 := afterLast_append '.' pre2 suf2 hns2
        rw [← hdec2, hd] at h2
        obtain rfl : suf = suf2 := Option.some.inj h2
        have hpre : pre2 = pre := List.append_cancel_right (hdec2.symm.trans hdec)
        rw [hdec, take_before_marker] at hall
        have hdot := List.all_eq_true.mp hall ch (hpre ▸ hch)
        simp only [decide_eq_true_eq] at hdot
        exact (hchd hdot).elim
    · rw [if_neg hall]
      constructor
      · intro hc
        refine ⟨pre, suf, hdec, hns, ?_, hc⟩
        rw [hdec, take_before_marker] at hall
        simp only [List.all_eq_true, decide_eq_true_eq, not_forall] at hall
        obtain ⟨ch, hch, hchd⟩ := hall
        exact ⟨ch, hch, hchd⟩
      · rintro ⟨pre2, suf2, hdec2, hns2, hex2, hcon2⟩
        have h2 := afterLast_append '.' pre2 suf2 hns2
        rw [← hdec2, hd] at h2
        obtain rfl : suf = suf2 := Option.some.inj h2
        exact hcon2

theorem scanner_filter_amended_witness :
    ('/' ∉ lowerChars "photo.JPG".data)
    ∧ ((media_extensions default_config).contains "" = false)
    ∧ (is_target_file (media_extensions default_config) "photo.JPG" = true ↔
        ∃ pre suf : List Char,
          lowerChars "photo.JPG".data = pre ++ '.' :: suf ∧ '.' ∉ suf
          ∧ (∃ ch ∈ pre, ch ≠ '.')
          ∧ (media_extensions default_config).contains (String.mk suf) = true) :=
  ⟨by decide, by decide,
   scanner_filter_amended (media_extensions default_config) "photo.JPG" (by decide) (by decide)⟩
